import Mathlib

/-!
Verification of the cross-chain bridge orchestration logic of arc-treasury.

The definitions below are a shallow embedding of the hook in
src/hooks/useBridgeCCTP.ts: the browser record store backed by
localStorage, the direct Sepolia to Arc bridge path of the bridge
function, the claimPendingBridge operation, the verifyAndLoad
reconciliation pass, restorePendingBurn and clearPendingBurn.
External collaborators (wallet, RPC, the Circle attestation service)
are abstracted into environment records whose fields give the outcome
of each external call; everything else follows the source line by line.
-/

namespace ArcTreasury

/-! ## String utilities (JavaScript semantics) -/

/-- Whether the first list is an initial segment of the second
(character-level helper for substring tests). -/
def leadsWith : List Char → List Char → Bool
  | [], _ => true
  | _ :: _, [] => false
  | a :: as, b :: bs => a == b && leadsWith as bs

/-- Whether sub occurs as a contiguous run inside hay. -/
def hasSubstrList (hay sub : List Char) : Bool :=
  match hay with
  | [] => leadsWith sub []
  | c :: rest => leadsWith sub (c :: rest) || hasSubstrList rest sub

/-- JavaScript String.prototype.includes: case-sensitive substring test. -/
def jsIncludes (s sub : String) : Bool := hasSubstrList s.data sub.data

/-- JavaScript String.prototype.startsWith. -/
def jsStartsWith (s pre : String) : Bool := leadsWith pre.data s.data

/-- JavaScript truthiness of a string: only the empty string is falsy. -/
def jsTruthy (s : String) : Bool := s != ""

/-- address.toLowerCase() as used for record-store keys. -/
def lowerString (s : String) : String := String.mk (s.data.map Char.toLower)

/-! ## Data model -/

/-- The two networks of the useBridgeCCTP hook (type BridgeNetwork). -/
inductive Network where
  | ethereumSepolia
  | arcTestnet
deriving Repr, DecidableEq

/-- Chain ids from SUPPORTED_NETWORKS: Ethereum Sepolia is 11155111 and
the hook header documents Arc Testnet as chainId 5042002. -/
def chainIdOf : Network → Nat
  | .ethereumSepolia => 11155111
  | .arcTestnet => 5042002

/-- CCTP domain codes from CCTP_DOMAINS: the source comments state
Domain 0 = Sepolia and Domain 26 = Arc Testnet. -/
def cctpDomain : Network → Nat
  | .ethereumSepolia => 0
  | .arcTestnet => 26

/-- The PendingBurn interface: the persisted transfer record. -/
structure PendingBurn where
  txHash : String
  fromNetwork : Network
  toNetwork : Network
  amount : String
  timestamp : Nat
deriving Repr, DecidableEq

/-- The JSON object stored under the arc_treasury_pending_burn key:
a finite map from lower-cased wallet address to PendingBurn,
modelled as an association list. -/
abbrev Store := List (String × PendingBurn)

/-- loadPendingBurn: read the record stored for an address. -/
def loadPendingBurn (s : Store) (address : String) : Option PendingBurn :=
  (s.find? (fun kv => kv.1 == lowerString address)).map (fun kv => kv.2)

/-- savePendingBurn: with some record, the source builds a fresh object
holding only this address and overwrites the whole stored value; with
none, it reads the stored object, deletes this address and writes the
rest back (removing the item entirely when the object becomes empty,
which the association list represents as the empty list). -/
def savePendingBurn (s : Store) (address : String) : Option PendingBurn → Store
  | some pb => [(lowerString address, pb)]
  | none => s.filter (fun kv => kv.1 != lowerString address)

/-! ## Circle attestation API model -/

/-- One element of the messages list returned by the attestation service.
The decodedAmount field stands for decodedMessage.decodedMessageBody.amount
after the source converts it to a display string; the floating-point
conversion itself is not modelled since no claim depends on it. -/
structure CircleMessage where
  message : Option String
  attestation : Option String
  decodedAmount : Option String
deriving Repr, DecidableEq

/-- A parsed JSON body of an attestation-service response. -/
structure CircleResponse where
  messages : List CircleMessage
deriving Repr, DecidableEq

/-- The check the source applies before treating an attestation as usable:
the attestation field must be present, truthy and different from the
PENDING sentinel. -/
def attReady (m : CircleMessage) : Bool :=
  match m.attestation with
  | some a => jsTruthy a && a != ("PENDING")
  | none => false

/-! ## Fee computation (direct Sepolia to Arc path) -/

/-- The maxFee computed before the bridgeWithPreapproval call:
feeBps = 1, calculatedFee = amountWei * feeBps / 10000 in integer
arithmetic, MIN_FEE = 1000, and the larger of the two is used. -/
def sepoliaToArcMaxFee (amountWei : Nat) : Nat :=
  let feeBps := 1
  let calculatedFee := amountWei * feeBps / 10000
  let minFee := 1000
  if calculatedFee > minFee then calculatedFee else minFee

/-! ## Error classification used by the bridge catch handlers -/

/-- The isNetworkError test run over an error message in both the mint
catch handler and the outer bridge catch handler. -/
def isNetworkErrorMsg (m : String) : Bool :=
  jsIncludes m ("chain") || jsIncludes m ("network") || jsIncludes m ("Chain ID") ||
  jsIncludes m ("not switched") || jsIncludes m ("does not match") ||
  (jsIncludes m ("current") && jsIncludes m ("expected"))

/-- The error-message rewriting at the top of the outer bridge catch
handler (user rejection, insufficient funds, allowance). -/
def normalizeBridgeError (m : String) : String :=
  if jsIncludes m ("User rejected") || jsIncludes m ("user rejected") ||
      jsIncludes m ("User denied") then
    "Transaction rejected by user"
  else if jsIncludes m ("insufficient funds") then "Insufficient funds for gas"
  else if jsIncludes m ("allowance") then "Token approval failed"
  else m

/-! ## Attestation polling loop of the direct Sepolia to Arc path -/

/-- Outcome of one fetch of the attestation endpoint inside the polling
loop: the fetch or the json parse threw, the response was not ok, or a
parsed body was obtained. -/
inductive PollStep where
  | throwErr
  | notOk
  | ok (r : CircleResponse)

/-- Whether one poll iteration breaks out of the loop, and with what:
the source breaks when messages[0].attestation is truthy and different
from PENDING, recording messages[0].message and the attestation. -/
def pollBreak : PollStep → Option (Option String × String)
  | .ok r =>
    match r.messages.head? with
    | some m =>
      match m.attestation with
      | some a => if jsTruthy a && a != ("PENDING") then some (m.message, a) else none
      | none => none
    | none => none
  | _ => none

/-- The while loop polling the attestation service: attempt counts up,
fuel counts the remaining attempts out of MAX_ATTEMPTS = 150. -/
def attLoop (poll : Nat → PollStep) : Nat → Nat → Option (Option String × String)
  | _, 0 => none
  | attempt, Nat.succ fuel =>
    match pollBreak (poll attempt) with
    | some r => some r
    | none => attLoop poll (attempt + 1) fuel

/-! ## The direct Sepolia to Arc bridge path -/

/-- Environment of one run of the direct Sepolia to Arc branch of the
bridge function: the outcome of every external interaction, in program
order. Except values model a throwing await. -/
structure DirectEnv where
  /-- parseFloat(amount) > 0, the amount guard at the top of bridge. -/
  amountPos : Bool
  /-- the human-readable amount string the caller passed. -/
  amountStr : String
  /-- parseUnits(amount, 6), the 6-decimal integer amount. -/
  amountWei : Nat
  /-- account.chainId when bridge is called. -/
  chainIdAtStart : Nat
  /-- whether the initial switch to the source network succeeds. -/
  sourceSwitchOk : Bool
  /-- the current USDC allowance read from the token contract. -/
  allowance : Nat
  /-- approve plus its receipt, when the allowance is insufficient. -/
  approveOutcome : Except String Unit
  /-- sendTransaction of the burn: an error message or the tx hash. -/
  burnSubmit : Except String String
  /-- waitForTransactionReceipt of the burn: a throw, or whether the
  receipt status is success. -/
  burnWait : Except String Bool
  /-- the attestation polling endpoint, by attempt number. -/
  attPoll : Nat → PollStep
  /-- account.chainId when the mint step begins. -/
  chainIdAtMint : Nat
  /-- switchChainAsync to Arc Testnet. -/
  switchChain : Except String Unit
  /-- the eth_chainId poll results during switch verification. -/
  chainIdPoll : Nat → Nat
  /-- the final eth_chainId re-check before creating the Arc client. -/
  chainIdRecheck : Nat
  /-- writeContract of receiveMessage: an error message or the tx hash. -/
  mintSubmit : Except String String
  /-- waitForTransactionReceipt of the mint: a throw, or whether the
  receipt status is success. -/
  mintWait : Except String Bool
  /-- Date.now() used for record timestamps. -/
  now : Nat

/-- Observable result of a bridge run: the durable store plus the parts
of the component state the claims are about. -/
structure BridgeOutcome where
  store : Store
  pendingBurn : Option PendingBurn
  attestationStatus : Option String
  error : Option String
  mintConfirmed : Bool
  mintSubmitted : Bool
  burnSubmitted : Bool
deriving Repr, DecidableEq

/-- The PendingBurn record the direct path builds at its persistence
points: burn hash, the fixed Sepolia to Arc direction, the amount
string and Date.now(). -/
def mkPendingBurn (env : DirectEnv) (txHash : String) : PendingBurn :=
  { txHash := txHash, fromNetwork := .ethereumSepolia, toNetwork := .arcTestnet,
    amount := env.amountStr, timestamp := env.now }

/-- The outer catch handler of the bridge function. Parameters mirror
the refs it consults: burnConfirmedRef, burnTxHashRef, mintConfirmedRef,
mintTxHashRef, and the attestation status reached before the throw. -/
def bridgeOuterCatch (env : DirectEnv) (address : String) (s : Store)
    (rawMsg : String) (burnConfirmed : Bool) (burnTxHash : Option String)
    (mintConfirmedRef : Bool) (mintSubmitted burnSubmitted : Bool)
    (attSt : Option String) : BridgeOutcome :=
  let errorMsg := normalizeBridgeError rawMsg
  if isNetworkErrorMsg errorMsg && burnConfirmed then
    -- network-switch error after a confirmed burn: the record is put in
    -- component state only; nothing is written to the durable store
    { store := s, pendingBurn := some (mkPendingBurn env (burnTxHash.getD (""))),
      attestationStatus := attSt, error := none, mintConfirmed := false,
      mintSubmitted := mintSubmitted, burnSubmitted := burnSubmitted }
  else if burnConfirmed && burnTxHash.isSome then
    if mintConfirmedRef then
      -- mint already confirmed: return without touching anything
      { store := s, pendingBurn := none, attestationStatus := attSt, error := none,
        mintConfirmed := true, mintSubmitted := mintSubmitted,
        burnSubmitted := burnSubmitted }
    else
      let pb := mkPendingBurn env (burnTxHash.getD (""))
      { store := savePendingBurn s address (some pb), pendingBurn := some pb,
        attestationStatus := some ("pending_mint"),
        error := some ("Mint was not completed. Your funds are safe - click Claim USDC."),
        mintConfirmed := false, mintSubmitted := mintSubmitted,
        burnSubmitted := burnSubmitted }
  else
    { store := s, pendingBurn := none, attestationStatus := none,
      error := some errorMsg, mintConfirmed := false,
      mintSubmitted := mintSubmitted, burnSubmitted := burnSubmitted }

/-- Result of the inner mint try block: success, or a throw carrying the
error message and whether the mint transaction had been sent. -/
inductive MintTryResult where
  | success
  | thrown (msg : String) (mintTxSent : Bool)

/-- The switch-verification loop: up to 10 polls of eth_chainId, each
compared against the Arc Testnet chain id. -/
def switchVerified (env : DirectEnv) : Bool :=
  (List.range 10).any (fun i => env.chainIdPoll i == chainIdOf .arcTestnet)

/-- The mint steps that run after any network switching: the final
chain re-check, receiveMessage submission, and its receipt. -/
def mintAfterSwitch (env : DirectEnv) : MintTryResult :=
  if env.chainIdRecheck != chainIdOf .arcTestnet then
    .thrown ("Network not switched: current " ++ toString env.chainIdRecheck ++
      ", expected " ++ toString (chainIdOf .arcTestnet)) false
  else
    match env.mintSubmit with
    | .error e => .thrown e false
    | .ok _ =>
      match env.mintWait with
      | .error e => .thrown e true
      | .ok true => .success
      | .ok false => .thrown ("Mint transaction failed") true

/-- The inner mint try block: switch to Arc if needed, verify the switch
took effect, then mint. -/
def mintTry (env : DirectEnv) : MintTryResult :=
  if env.chainIdAtMint != chainIdOf .arcTestnet then
    match env.switchChain with
    | .error e => .thrown e false
    | .ok _ =>
      if switchVerified env then mintAfterSwitch env
      else .thrown ("Network switch timeout - please switch to Arc Testnet manually") false
  else mintAfterSwitch env

/-- The mint phase of the direct path, including its catch handler.
None of the catch branches except the already-minted one writes to the
durable store: the record is kept in component state only. -/
def bridgeMintPhase (env : DirectEnv) (address burnHash : String) (s : Store) :
    BridgeOutcome :=
  match mintTry env with
  | .success =>
    { store := savePendingBurn s address none, pendingBurn := none,
      attestationStatus := some ("complete"), error := none,
      mintConfirmed := true, mintSubmitted := true, burnSubmitted := true }
  | .thrown msg sent =>
    if isNetworkErrorMsg msg then
      { store := s, pendingBurn := some (mkPendingBurn env burnHash),
        attestationStatus := some ("pending_mint"), error := none,
        mintConfirmed := false, mintSubmitted := sent, burnSubmitted := true }
    else if jsIncludes msg ("Nonce already used") || jsIncludes msg ("already") then
      { store := savePendingBurn s address none, pendingBurn := none,
        attestationStatus := some ("complete"), error := none,
        mintConfirmed := true, mintSubmitted := sent, burnSubmitted := true }
    else
      { store := s, pendingBurn := some (mkPendingBurn env burnHash),
        attestationStatus := some ("pending_mint"), error := none,
        mintConfirmed := false, mintSubmitted := sent, burnSubmitted := true }

/-- The attestation-timeout branch: the burn is saved as a pending burn,
the status becomes pending_mint, and the function returns. -/
def bridgeAttTimeout (env : DirectEnv) (address burnHash : String) (s : Store) :
    BridgeOutcome :=
  let pb := mkPendingBurn env burnHash
  { store := savePendingBurn s address (some pb), pendingBurn := some pb,
    attestationStatus := some ("pending_mint"), error := none,
    mintConfirmed := false, mintSubmitted := false, burnSubmitted := true }

/-- Everything after the burn receipt confirms: the attestation polling
loop, then either the timeout branch (when the loop ends with no truthy
message bytes) or the mint phase. -/
def bridgeAfterConfirm (env : DirectEnv) (address burnHash : String) (s : Store) :
    BridgeOutcome :=
  match attLoop env.attPoll 1 150 with
  | some (some m, _) =>
    if jsTruthy m then bridgeMintPhase env address burnHash s
    else bridgeAttTimeout env address burnHash s
  | some (none, _) => bridgeAttTimeout env address burnHash s
  | none => bridgeAttTimeout env address burnHash s

/-- State of a bridge run at the burn-confirmation boundary: either the
run already finished (guard failure, pre-burn error, or failed burn
receipt), or the burn just confirmed with this hash and this store. -/
inductive BurnStage where
  | finished (o : BridgeOutcome)
  | confirmed (burnHash : String) (s : Store)
deriving Repr, DecidableEq

/-- The direct Sepolia to Arc path up to and including the burn receipt.
Mirrors the source order: amount guard, clearing any old pending burn,
the source-network switch, the allowance check and approval, sending the
burn, then waiting for its receipt. burnConfirmedRef and burnTxHashRef
are set directly after sendTransaction, before the receipt arrives. -/
def bridgeUntilConfirm (env : DirectEnv) (address : String) (s0 : Store) : BurnStage :=
  if !env.amountPos then
    .finished
      { store := s0, pendingBurn := none, attestationStatus := none,
        error := none, mintConfirmed := false, mintSubmitted := false,
        burnSubmitted := false }
  else
    -- clear any old pending burn from localStorage before starting
    let s1 := savePendingBurn s0 address none
    if env.chainIdAtStart != chainIdOf .ethereumSepolia && !env.sourceSwitchOk then
      .finished
        { store := s1, pendingBurn := none, attestationStatus := none,
          error := some ("Failed to switch network"), mintConfirmed := false,
          mintSubmitted := false, burnSubmitted := false }
    else
      match (if env.allowance < env.amountWei then env.approveOutcome else .ok ()) with
      | .error e =>
        .finished (bridgeOuterCatch env address s1 e false none false false false none)
      | .ok _ =>
        match env.burnSubmit with
        | .error e =>
          .finished (bridgeOuterCatch env address s1 e false none false false false none)
        | .ok burnHash =>
          -- burnTxHashRef := burnHash; burnConfirmedRef := true (before the receipt)
          match env.burnWait with
          | .error e =>
            .finished (bridgeOuterCatch env address s1 e true (some burnHash)
              false false true none)
          | .ok false =>
            .finished (bridgeOuterCatch env address s1 ("Bridge transaction failed")
              true (some burnHash) false false true none)
          | .ok true => .confirmed burnHash s1

/-- The whole direct Sepolia to Arc bridge path. -/
def bridgeSepoliaToArc (env : DirectEnv) (address : String) (s0 : Store) :
    BridgeOutcome :=
  match bridgeUntilConfirm env address s0 with
  | .finished o => o
  | .confirmed burnHash s => bridgeAfterConfirm env address burnHash s

/-! ## claimPendingBridge -/

/-- Environment of one claimPendingBridge run. fetchDomain is indexed by
position in the domains list the source builds: index 0 is the saved
direction, index 1 the opposite one. An Except error stands for a throw
of fetch or of the json parse, which the per-domain try swallows. -/
structure ClaimEnv where
  fetchDomain : Nat → Except Unit CircleResponse
  /-- account.chainId when the claim starts. -/
  chainIdNow : Nat
  /-- switchChainAsync to the destination chain. -/
  switchChain : Except String Unit
  /-- the eth_chainId poll results during switch verification. -/
  chainIdPoll : Nat → Nat
  /-- the final eth_chainId re-check before creating the client. -/
  chainIdRecheck : Nat
  /-- writeContract of receiveMessage: an error message or the tx hash. -/
  mintSubmit : Except String String
  /-- waitForTransactionReceipt of the claim transaction: the source
  only awaits it and never inspects the status, so only a throw is
  observable. -/
  mintWaitThrows : Option String

/-- Observable result of a claimPendingBridge run. reportedSuccess
records whether a success toast (rather than an error) was shown. -/
structure ClaimOutcome where
  store : Store
  pendingBurn : Option PendingBurn
  attestationStatus : Option String
  error : Option String
  reportedSuccess : Bool
  mintConfirmed : Bool
  mintSubmitted : Bool
deriving Repr, DecidableEq

/-- SUPPORTED_NETWORKS[n].name, used only inside error message text. -/
def networkName : Network → String
  | .ethereumSepolia => "Ethereum Sepolia"
  | .arcTestnet => "Arc Testnet"

/-- The attestation-still-processing error message thrown by both the
claim path and the restore path. -/
def pendingMsg : String :=
  "Attestation is still being processed. This usually takes 1-3 minutes. Please wait a moment and try again."

/-- One iteration of the domains loop: a message is found when the
response parses and its messages list is non-empty. -/
def claimTryDomain (res : Except Unit CircleResponse) : Option CircleMessage :=
  match res with
  | .ok r => r.messages.head?
  | .error _ => none

/-- The domains loop of claimPendingBridge: the saved direction is tried
first (destination = record.toNetwork); on the second, flipped entry
the detected destination is record.fromNetwork. -/
def claimFindMessage (env : ClaimEnv) (record : PendingBurn) :
    Option (CircleMessage × Network) :=
  match claimTryDomain (env.fetchDomain 0) with
  | some m => some (m, record.toNetwork)
  | none =>
    match claimTryDomain (env.fetchDomain 1) with
    | some m => some (m, record.fromNetwork)
    | none => none

/-- Result of the claim try block after a usable message was found:
either the mint transaction was sent and awaited, or a throw carrying
the error message and whether the transaction had been sent. -/
inductive ClaimStep where
  | success
  | thrown (msg : String) (mintTxSent : Bool)

/-- The network switch and receiveMessage call of claimPendingBridge.
The inner try around switchChainAsync and its verification loop rewrites
any failure into a fixed switch-failure message; the chain re-check then
runs unconditionally before the mint is submitted. -/
def claimSwitchAndMint (env : ClaimEnv) (destNetwork : Network) : ClaimStep :=
  let destChainId := chainIdOf destNetwork
  let afterSwitch : ClaimStep :=
    if env.chainIdRecheck != destChainId then
      .thrown ("Network not switched: current " ++ toString env.chainIdRecheck ++
        ", expected " ++ toString destChainId) false
    else
      match env.mintSubmit with
      | .error e => .thrown e false
      | .ok _ =>
        match env.mintWaitThrows with
        | some e => .thrown e true
        | none => .success
  if env.chainIdNow != destChainId then
    match env.switchChain with
    | .error _ =>
      .thrown ("Failed to switch network. Please switch to " ++
        networkName destNetwork ++ " manually.") false
    | .ok _ =>
      if (List.range 10).any (fun i => env.chainIdPoll i == destChainId) then
        afterSwitch
      else
        .thrown ("Failed to switch network. Please switch to " ++
          networkName destNetwork ++ " manually.") false
  else afterSwitch

/-- The try block of claimPendingBridge: find the attestation message
across both domains, validate it, then switch and mint. -/
def claimRun (env : ClaimEnv) (record : PendingBurn) : ClaimStep :=
  match claimFindMessage env record with
  | none => .thrown pendingMsg false
  | some (m, destNetwork) =>
    if !(attReady m) then .thrown pendingMsg false
    else
      match m.message with
      | none => .thrown ("Message bytes not found in attestation response") false
      | some mb =>
        if !(jsTruthy mb) then
          .thrown ("Message bytes not found in attestation response") false
        else claimSwitchAndMint env destNetwork

/-- claimPendingBridge for a stored record, including the catch handler:
an error mentioning already received or Nonce already used clears the
record and reports success; any other error keeps the store untouched.
attSt0 is the attestation status before the call, kept on the error
path (the mintConfirmed component-state flag likewise starts false). -/
def claimPendingBridge (env : ClaimEnv) (address : String) (record : PendingBurn)
    (s : Store) (attSt0 : Option String) : ClaimOutcome :=
  match claimRun env record with
  | .success =>
    { store := savePendingBurn s address none, pendingBurn := none,
      attestationStatus := some ("complete"), error := none,
      reportedSuccess := true, mintConfirmed := true, mintSubmitted := true }
  | .thrown msg sent =>
    if jsIncludes msg ("already received") || jsIncludes msg ("Nonce already used") then
      { store := savePendingBurn s address none, pendingBurn := none,
        attestationStatus := some ("complete"), error := none,
        reportedSuccess := true, mintConfirmed := false, mintSubmitted := sent }
    else
      { store := s, pendingBurn := some record, attestationStatus := attSt0,
        error := some (if msg == ("") then "Failed to claim USDC" else msg),
        reportedSuccess := false, mintConfirmed := false, mintSubmitted := sent }

/-! ## verifyAndLoad (startup reconciliation) -/

/-- Environment of the verifyAndLoad pass that runs when a stored record
is found on wallet connect: the attestation fetch outcome and the
current wallet chain id. -/
structure VerifyEnv where
  fetch : Except Unit CircleResponse
  chainId : Nat

/-- Observable result of verifyAndLoad: the store, the component state,
and which of the two proof-present reactions fired (scheduling the
automatic claim, or surfacing the claim affordance toast). -/
structure VerifyOutcome where
  store : Store
  pendingBurn : Option PendingBurn
  attestationStatus : Option String
  autoClaimScheduled : Bool
  claimAffordanceShown : Bool
deriving Repr, DecidableEq

/-- verifyAndLoad: re-query the attestation service for the stored
record. A fetch error keeps the record conservatively; an empty
messages list clears it; otherwise the amount is backfilled, the
attestation status becomes pending or pending_mint, and with a ready
attestation the auto-claim fires exactly when the wallet chain id is
the hardcoded Arc Testnet id. -/
def verifyAndLoad (env : VerifyEnv) (address : String) (saved : PendingBurn)
    (s : Store) : VerifyOutcome :=
  match env.fetch with
  | .error _ =>
    { store := s, pendingBurn := some saved,
      attestationStatus := some ("pending_mint"),
      autoClaimScheduled := false, claimAffordanceShown := false }
  | .ok r =>
    match r.messages.head? with
    | none =>
      -- no CCTP message found for the stored transaction: clear it
      { store := savePendingBurn s address none, pendingBurn := none,
        attestationStatus := none, autoClaimScheduled := false,
        claimAffordanceShown := false }
    | some m =>
      let amount :=
        if !(jsTruthy saved.amount) || saved.amount == ("0") then
          match m.decodedAmount with
          | some a => a
          | none => saved.amount
        else saved.amount
      let updated : PendingBurn := { saved with amount := amount }
      if !(attReady m) then
        { store := savePendingBurn s address (some updated),
          pendingBurn := some updated, attestationStatus := some ("pending"),
          autoClaimScheduled := false, claimAffordanceShown := false }
      else if env.chainId == chainIdOf .arcTestnet then
        { store := savePendingBurn s address (some updated),
          pendingBurn := some updated, attestationStatus := some ("pending_mint"),
          autoClaimScheduled := true, claimAffordanceShown := false }
      else
        { store := savePendingBurn s address (some updated),
          pendingBurn := some updated, attestationStatus := some ("pending_mint"),
          autoClaimScheduled := false, claimAffordanceShown := true }

/-! ## clearPendingBurn and restorePendingBurn -/

/-- clearPendingBurn: explicit user dismissal of a pending record. -/
def clearPendingBurn (address : String) (s : Store) : Store :=
  savePendingBurn s address none

/-- Environment of a restorePendingBurn run: the two domain fetches (in
the fixed order Sepolia domain first, Arc domain second) and the clock. -/
structure RestoreEnv where
  fetchDomain : Nat → Except Unit CircleResponse
  now : Nat

/-- Observable result of restorePendingBurn, extended with the number of
network requests the run performed. -/
structure RestoreOutcome where
  store : Store
  pendingBurn : Option PendingBurn
  attestationStatus : Option String
  success : Bool
  message : String
  networkCalls : Nat
deriving Repr, DecidableEq

/-- The tail of restorePendingBurn once a message was found on one of
the two domains, with the direction that domain implies. -/
def restoreFound (env : RestoreEnv) (address burnTxHash : String) (s : Store)
    (m : CircleMessage) (detectedFrom detectedTo : Network) (calls : Nat) :
    RestoreOutcome :=
  let detectedAmount :=
    match m.decodedAmount with
    | some a => a
    | none => "0"
  if !(attReady m) then
    { store := s, pendingBurn := none, attestationStatus := none,
      success := false, message := pendingMsg, networkCalls := calls }
  else
    let pb : PendingBurn :=
      { txHash := burnTxHash, fromNetwork := detectedFrom, toNetwork := detectedTo,
        amount := detectedAmount, timestamp := env.now }
    let directionText :=
      if detectedFrom == Network.ethereumSepolia then "Sepolia → Arc"
      else "Arc → Sepolia"
    { store := savePendingBurn s address (some pb), pendingBurn := some pb,
      attestationStatus := some ("pending_mint"), success := true,
      message := "Found " ++ detectedAmount ++ " USDC (" ++ directionText ++
        "). Click Claim to receive!",
      networkCalls := calls }

/-- restorePendingBurn: shape-validate the user-supplied hash (truthy,
leading 0x, exactly 66 characters) before any network request, then try
the Sepolia domain and the Arc domain in turn. -/
def restorePendingBurn (env : RestoreEnv) (address burnTxHash : String)
    (s : Store) : RestoreOutcome :=
  if !(jsTruthy burnTxHash) || !(jsStartsWith burnTxHash ("0x")) then
    { store := s, pendingBurn := none, attestationStatus := none,
      success := false, message := "Invalid transaction hash format",
      networkCalls := 0 }
  else if burnTxHash.length != 66 then
    { store := s, pendingBurn := none, attestationStatus := none,
      success := false, message := "Transaction hash should be 66 characters",
      networkCalls := 0 }
  else
    match claimTryDomain (env.fetchDomain 0) with
    | some m => restoreFound env address burnTxHash s m .ethereumSepolia .arcTestnet 1
    | none =>
      match claimTryDomain (env.fetchDomain 1) with
      | some m => restoreFound env address burnTxHash s m .arcTestnet .ethereumSepolia 2
      | none =>
        { store := s, pendingBurn := none, attestationStatus := none,
          success := false,
          message := "No CCTP burn found for this transaction. Make sure this is a valid burn tx hash.",
          networkCalls := 2 }

/-! ## Derived predicates -/

/-- Whether one poll step yields a usable proof: the loop break fires
and the recorded message bytes are truthy (otherwise the source falls
into the timeout branch even after a break). -/
def usableProof (p : PollStep) : Bool :=
  match pollBreak p with
  | some (some m, _) => jsTruthy m
  | some (none, _) => false
  | none => false

/-! ## Concrete fixtures used by counterexamples and witnesses -/

/-- A sample pending-burn record for the address 0xAlice. -/
def pbA : PendingBurn :=
  { txHash := "0xA1", fromNetwork := .ethereumSepolia, toNetwork := .arcTestnet,
    amount := "10", timestamp := 1 }

/-- A sample pending-burn record for the address 0xBob. -/
def pbB : PendingBurn :=
  { txHash := "0xB1", fromNetwork := .ethereumSepolia, toNetwork := .arcTestnet,
    amount := "20", timestamp := 2 }

/-- A stored record whose destination is Ethereum Sepolia. -/
def pbToSepolia : PendingBurn :=
  { txHash := "0xCC", fromNetwork := .arcTestnet, toNetwork := .ethereumSepolia,
    amount := "5", timestamp := 3 }

/-- A direct-path environment whose burn transaction is mined with a
failure receipt status. -/
def envBurnFails : DirectEnv :=
  { amountPos := true, amountStr := "25", amountWei := 25000000,
    chainIdAtStart := 11155111, sourceSwitchOk := true,
    allowance := 250000000, approveOutcome := .ok (),
    burnSubmit := .ok ("0xAA"), burnWait := .ok false,
    attPoll := fun _ => .notOk, chainIdAtMint := 5042002,
    switchChain := .ok (), chainIdPoll := fun _ => 5042002,
    chainIdRecheck := 5042002, mintSubmit := .error ("unused"),
    mintWait := .ok false, now := 1700000000000 }

/-- A direct-path environment whose burn confirms but whose attestation
service only ever answers with non-ok responses. -/
def envTimeout : DirectEnv :=
  { envBurnFails with burnWait := .ok true }

/-- A direct-path environment whose burn submission is rejected by the
user in the wallet. -/
def envUserReject : DirectEnv :=
  { envTimeout with burnSubmit := .error ("User rejected the request.") }

/-- A restore environment that would fail on any fetch (unused by the
validation path). -/
def envRestoreIdle : RestoreEnv :=
  { fetchDomain := fun _ => .error (), now := 0 }

/-- An attestation message whose proof is ready. -/
def readyMsg : CircleMessage :=
  { message := some ("0xmsg"), attestation := some ("0xatt"), decodedAmount := none }

/-- A claim environment in which the destination contract rejects the
receiveMessage call with the already-minted signal. -/
def envClaimAlready : ClaimEnv :=
  { fetchDomain := fun _ => .ok { messages := [readyMsg] },
    chainIdNow := 5042002, switchChain := .ok (),
    chainIdPoll := fun _ => 5042002, chainIdRecheck := 5042002,
    mintSubmit := .error ("execution reverted: Nonce already used"),
    mintWaitThrows := none }

/-- A claim environment whose receiveMessage call fails with an
unrelated execution error. -/
def envClaimFail : ClaimEnv :=
  { envClaimAlready with mintSubmit := .error ("execution reverted: out of gas") }

/-! ## Store lemmas -/

/-- Deleting an address removes its record. -/
theorem loadPendingBurn_save_none (s : Store) (a : String) :
    loadPendingBurn (savePendingBurn s a none) a = none := by
  unfold loadPendingBurn savePendingBurn
  have h : (s.filter (fun kv => kv.1 != lowerString a)).find?
      (fun kv => kv.1 == lowerString a) = none := by
    rw [List.find?_eq_none]
    intro x hx
    have hmem := List.mem_filter.mp hx
    simpa using hmem.2
  rw [h]
  rfl

/-- Writing a record for an address makes it the one loaded back. -/
theorem loadPendingBurn_save_some (s : Store) (a : String) (pb : PendingBurn) :
    loadPendingBurn (savePendingBurn s a (some pb)) a = some pb := by
  simp [loadPendingBurn, savePendingBurn, List.find?]

/-- Deleting an address twice is the same as deleting it once. -/
theorem savePendingBurn_none_idem (s : Store) (a : String) :
    savePendingBurn (savePendingBurn s a none) a none = savePendingBurn s a none := by
  unfold savePendingBurn
  rw [List.filter_filter]
  simp

/-! ## Control-flow lemmas -/

/-- When the polling loop breaks, some attempt within the window
produced the break value. -/
theorem attLoop_some_spec (poll : Nat → PollStep) :
    ∀ (fuel attempt : Nat) (r : Option String × String),
      attLoop poll attempt fuel = some r →
      ∃ k, attempt ≤ k ∧ k < attempt + fuel ∧ pollBreak (poll k) = some r := by
  intro fuel
  induction fuel with
  | zero => intro a r h; simp [attLoop] at h
  | succ f ih =>
    intro a r h
    unfold attLoop at h
    cases hp : pollBreak (poll a) with
    | some r2 =>
      rw [hp] at h
      refine ⟨a, Nat.le_refl a, by omega, ?_⟩
      rw [hp]
      exact h
    | none =>
      rw [hp] at h
      obtain ⟨k, hk1, hk2, hk3⟩ := ih (a + 1) r h
      exact ⟨k, by omega, by omega, hk3⟩

/-- At the instant the burn receipt confirms, the store is exactly the
initial store with the initiator entry cleared: no other write has
happened yet. -/
theorem bridgeUntilConfirm_confirmed_store (env : DirectEnv) (address : String)
    (s0 : Store) (burnHash : String) (s : Store)
    (h : bridgeUntilConfirm env address s0 = .confirmed burnHash s) :
    s = savePendingBurn s0 address none := by
  unfold bridgeUntilConfirm at h
  repeat' split at h
  all_goals simp_all

/-- When no poll attempt in the window yields a usable proof, the phase
after confirmation is the timeout branch. -/
theorem bridgeAfterConfirm_timeout (env : DirectEnv) (address burnHash : String)
    (s : Store)
    (hpoll : ∀ n, 1 ≤ n → n ≤ 150 → usableProof (env.attPoll n) = false) :
    bridgeAfterConfirm env address burnHash s = bridgeAttTimeout env address burnHash s := by
  unfold bridgeAfterConfirm
  cases hl : attLoop env.attPoll 1 150 with
  | none => rfl
  | some r =>
    obtain ⟨k, hk1, hk2, hk3⟩ := attLoop_some_spec env.attPoll 150 1 r hl
    have husable := hpoll k hk1 (by omega)
    unfold usableProof at husable
    rw [hk3] at husable
    rcases r with ⟨mo, a⟩
    cases mo with
    | none => rfl
    | some m =>
      simp only at husable
      simp [husable]

/-- Claim runs that do not report success leave the store untouched. -/
theorem claim_failure_keeps_store (env : ClaimEnv) (address : String)
    (record : PendingBurn) (s : Store) (attSt0 : Option String)
    (h : (claimPendingBridge env address record s attSt0).reportedSuccess = false) :
    (claimPendingBridge env address record s attSt0).store = s := by
  unfold claimPendingBridge at h ⊢
  cases hr : claimRun env record with
  | success => rw [hr] at h; simp at h
  | thrown msg sent =>
    cases hi : (jsIncludes msg ("already received") ||
        jsIncludes msg ("Nonce already used")) with
    | true => rw [hr] at h; simp [hi] at h
    | false => simp [hi]

/-- Claim runs that report success always clear the stored record. -/
theorem claim_success_clears_record (env : ClaimEnv) (address : String)
    (record : PendingBurn) (s : Store) (attSt0 : Option String)
    (h : (claimPendingBridge env address record s attSt0).reportedSuccess = true) :
    loadPendingBurn (claimPendingBridge env address record s attSt0).store address = none := by
  unfold claimPendingBridge at h ⊢
  cases hr : claimRun env record with
  | success =>
    simpa using loadPendingBurn_save_none s address
  | thrown msg sent =>
    cases hi : (jsIncludes msg ("already received") ||
        jsIncludes msg ("Nonce already used")) with
    | true =>
      simpa [hi] using loadPendingBurn_save_none s address
    | false => rw [hr] at h; simp [hi] at h

/-- Reconciliation with a non-empty messages list always stores back a
record for the address, with the original transaction hash. -/
theorem verifyAndLoad_nonempty_keeps_record (env : VerifyEnv) (address : String)
    (saved : PendingBurn) (s : Store) (r : CircleResponse) (m : CircleMessage)
    (rest : List CircleMessage)
    (hf : env.fetch = .ok r) (hm : r.messages = m :: rest) :
    ∃ pb, loadPendingBurn (verifyAndLoad env address saved s).store address = some pb ∧
      pb.txHash = saved.txHash := by
  unfold verifyAndLoad
  rw [hf]
  simp only [hm, List.head?]
  cases hA : attReady m with
  | false =>
    simp only [hA, Bool.not_false, if_true]
    exact ⟨_, loadPendingBurn_save_some s address _, rfl⟩
  | true =>
    simp only [hA, Bool.not_true, Bool.false_eq_true, if_false]
    cases hc : (env.chainId == chainIdOf Network.arcTestnet) with
    | true =>
      simp only [hc, if_true]
      exact ⟨_, loadPendingBurn_save_some s address _, rfl⟩
    | false =>
      simp only [hc, Bool.false_eq_true, if_false]
      exact ⟨_, loadPendingBurn_save_some s address _, rfl⟩

/-- A leading 0x forces the string to be truthy (non-empty). -/
theorem jsTruthy_of_starts0x (s : String) (h : jsStartsWith s ("0x") = true) :
    jsTruthy s = true := by
  by_contra hne
  have hs : s = "" := by
    simp only [jsTruthy, bne_iff_ne, ne_eq, Bool.not_eq_true] at hne
    simpa using hne
  subst hs
  simp [jsStartsWith, leadsWith] at h

/-! ## C1 -/

/-- C1 fails on the code: the direct path sets burnConfirmedRef directly
after submission, so when the burn receipt comes back with a failure
status the outer catch handler still persists a pending-burn record for
the initiator, carrying the hash of the failed transaction. -/
theorem burn_receipt_failure_persists_record :
    (bridgeSepoliaToArc envBurnFails ("0xUser") []).error =
      some ("Mint was not completed. Your funds are safe - click Claim USDC.") ∧
    loadPendingBurn (bridgeSepoliaToArc envBurnFails ("0xUser") []).store ("0xUser") =
      some (mkPendingBurn envBurnFails ("0xAA")) := by decide

/-! ## C2 -/

/-- C2 fails on the code: at the instant the burn receipt confirms, the
durable store holds no record for the initiator (the run up to that
point has only cleared the address), so an interruption one instruction
after confirmation loses the transfer. -/
theorem no_record_at_burn_confirmation (env : DirectEnv) (address : String)
    (s0 : Store) (burnHash : String) (s : Store)
    (h : bridgeUntilConfirm env address s0 = .confirmed burnHash s) :
    loadPendingBurn s address = none := by
  rw [bridgeUntilConfirm_confirmed_store env address s0 burnHash s h]
  exact loadPendingBurn_save_none s0 address

/-- Witness for C2: a run that reaches confirmation with hash 0xAA. -/
theorem no_record_at_burn_confirmation_witness :
    loadPendingBurn [] ("0xUser") = none :=
  no_record_at_burn_confirmation envTimeout ("0xUser") [(("0xuser"), pbA)] ("0xAA") []
    (by decide)

/-! ## C3 -/

/-- C3: when no poll attempt within the budget yields a usable proof, a
run whose burn confirmed ends with the record persisted, the reported
phase pending_mint (the pendingManualMint state of the spec), no mint
transaction submitted, and no error in component state. -/
theorem attestation_timeout_nondestructive (env : DirectEnv) (address : String)
    (s0 : Store) (burnHash : String) (s : Store)
    (hconf : bridgeUntilConfirm env address s0 = .confirmed burnHash s)
    (hpoll : ∀ n, 1 ≤ n → n ≤ 150 → usableProof (env.attPoll n) = false) :
    loadPendingBurn (bridgeSepoliaToArc env address s0).store address =
      some (mkPendingBurn env burnHash) ∧
    (bridgeSepoliaToArc env address s0).attestationStatus = some ("pending_mint") ∧
    (bridgeSepoliaToArc env address s0).mintSubmitted = false ∧
    (bridgeSepoliaToArc env address s0).error = none := by
  have hrun : bridgeSepoliaToArc env address s0 =
      bridgeAfterConfirm env address burnHash s := by
    unfold bridgeSepoliaToArc
    rw [hconf]
  rw [hrun, bridgeAfterConfirm_timeout env address burnHash s hpoll]
  unfold bridgeAttTimeout
  exact ⟨loadPendingBurn_save_some s address _, rfl, rfl, rfl⟩

/-- Witness for C3: a confirmed burn with an attestation service that
always answers non-ok. -/
theorem attestation_timeout_nondestructive_witness :
    loadPendingBurn (bridgeSepoliaToArc envTimeout ("0xUser") []).store ("0xUser") =
      some (mkPendingBurn envTimeout ("0xAA")) ∧
    (bridgeSepoliaToArc envTimeout ("0xUser") []).attestationStatus = some ("pending_mint") ∧
    (bridgeSepoliaToArc envTimeout ("0xUser") []).mintSubmitted = false ∧
    (bridgeSepoliaToArc envTimeout ("0xUser") []).error = none :=
  attestation_timeout_nondestructive envTimeout ("0xUser") [] ("0xAA") []
    (by decide) (fun n _ _ => rfl)

/-! ## C4 -/

/-- C4: a claim on a record whose mint already succeeded elsewhere (the
destination contract answers the receiveMessage attempt with the
already-minted signal) reports success, not an error, clears the stored
record, and submits no mint transaction. -/
theorem claim_already_minted_idempotent (env : ClaimEnv) (address : String)
    (record : PendingBurn) (s : Store) (attSt0 : Option String)
    (m : CircleMessage) (mb e : String)
    (hm : claimTryDomain (env.fetchDomain 0) = some m)
    (hready : attReady m = true)
    (hmb : m.message = some mb) (hmbt : jsTruthy mb = true)
    (hchain : env.chainIdNow = chainIdOf record.toNetwork)
    (hre : env.chainIdRecheck = chainIdOf record.toNetwork)
    (hmint : env.mintSubmit = .error e)
    (halready : jsIncludes e ("Nonce already used") = true ∨
      jsIncludes e ("already received") = true) :
    (claimPendingBridge env address record s attSt0).reportedSuccess = true ∧
    (claimPendingBridge env address record s attSt0).error = none ∧
    loadPendingBurn (claimPendingBridge env address record s attSt0).store address = none ∧
    (claimPendingBridge env address record s attSt0).mintSubmitted = false := by
  have hrun : claimRun env record = .thrown e false := by
    unfold claimRun claimFindMessage
    rw [hm]
    simp only [hready, Bool.not_true, if_false, hmb, hmbt]
    simp only [Bool.false_eq_true, if_false]
    unfold claimSwitchAndMint
    rw [hchain, hre]
    simp [hmint]
  have hinc : (jsIncludes e ("already received") ||
      jsIncludes e ("Nonce already used")) = true := by
    rcases halready with h1 | h1 <;> simp [h1]
  unfold claimPendingBridge
  rw [hrun]
  simp only [hinc, if_true]
  exact ⟨trivial, trivial, loadPendingBurn_save_none s address, trivial⟩

/-- Witness for C4 on a stored Sepolia to Arc record. -/
theorem claim_already_minted_idempotent_witness :
    (claimPendingBridge envClaimAlready ("0xUser") pbA [(("0xuser"), pbA)] none).reportedSuccess = true ∧
    (claimPendingBridge envClaimAlready ("0xUser") pbA [(("0xuser"), pbA)] none).error = none ∧
    loadPendingBurn (claimPendingBridge envClaimAlready ("0xUser") pbA [(("0xuser"), pbA)] none).store ("0xUser") = none ∧
    (claimPendingBridge envClaimAlready ("0xUser") pbA [(("0xuser"), pbA)] none).mintSubmitted = false :=
  claim_already_minted_idempotent envClaimAlready ("0xUser") pbA [(("0xuser"), pbA)] none
    readyMsg ("0xmsg") ("execution reverted: Nonce already used")
    rfl (by decide) rfl (by decide) (by decide) (by decide) rfl
    (Or.inl (by decide))

/-! ## C5 -/

/-- C5 fails on the code: startup reconciliation receiving a well-formed
response whose messages list is empty deletes the stored record, even
though no mint and no dismissal happened. -/
theorem empty_attestation_response_deletes_record :
    loadPendingBurn [(("0xuser"), pbA)] ("0xUser") = some pbA ∧
    loadPendingBurn (verifyAndLoad { fetch := .ok { messages := [] }, chainId := 11155111 }
      ("0xUser") pbA [(("0xuser"), pbA)]).store ("0xUser") = none := by decide

/-- C5 amended: the deleting events are a success-reporting claim
(confirmed mint success or a confirmed already-minted signal), explicit
user dismissal, the start of a new transfer (which clears the prior
record for the initiator before burning), and startup reconciliation
receiving a response with no message for the stored transaction.
Attestation timeout, attestation poll errors, a reconciliation fetch
error, and claim failures without the already-minted signal never
remove the record. -/
theorem deletion_policy_amended :
    (∀ (env : DirectEnv) (address : String) (s0 : Store) (burnHash : String) (s : Store),
      bridgeUntilConfirm env address s0 = .confirmed burnHash s →
      (∀ n, 1 ≤ n → n ≤ 150 → usableProof (env.attPoll n) = false) →
      loadPendingBurn (bridgeSepoliaToArc env address s0).store address =
        some (mkPendingBurn env burnHash)) ∧
    (∀ (env : ClaimEnv) (address : String) (record : PendingBurn) (s : Store)
      (attSt0 : Option String),
      (claimPendingBridge env address record s attSt0).reportedSuccess = false →
      (claimPendingBridge env address record s attSt0).store = s) ∧
    (∀ (env : ClaimEnv) (address : String) (record : PendingBurn) (s : Store)
      (attSt0 : Option String),
      (claimPendingBridge env address record s attSt0).reportedSuccess = true →
      loadPendingBurn (claimPendingBridge env address record s attSt0).store address = none) ∧
    (∀ (env : VerifyEnv) (address : String) (saved : PendingBurn) (s : Store),
      env.fetch = .error () → (verifyAndLoad env address saved s).store = s) ∧
    (∀ (env : VerifyEnv) (address : String) (saved : PendingBurn) (s : Store)
      (r : CircleResponse) (m : CircleMessage) (rest : List CircleMessage),
      env.fetch = .ok r → r.messages = m :: rest →
      ∃ pb, loadPendingBurn (verifyAndLoad env address saved s).store address = some pb ∧
        pb.txHash = saved.txHash) ∧
    (∀ (address : String) (s : Store),
      loadPendingBurn (clearPendingBurn address s) address = none) ∧
    (∀ (env : DirectEnv) (address : String) (s0 : Store) (burnHash : String) (s : Store),
      bridgeUntilConfirm env address s0 = .confirmed burnHash s →
      loadPendingBurn s address = none) := by
  refine ⟨?_, ?_, ?_, ?_, ?_, ?_, ?_⟩
  · intro env address s0 burnHash s hconf hpoll
    have hrun : bridgeSepoliaToArc env address s0 =
        bridgeAfterConfirm env address burnHash s := by
      unfold bridgeSepoliaToArc
      rw [hconf]
    rw [hrun, bridgeAfterConfirm_timeout env address burnHash s hpoll]
    unfold bridgeAttTimeout
    exact loadPendingBurn_save_some s address _
  · exact claim_failure_keeps_store
  · exact claim_success_clears_record
  · intro env address saved s hfe
    unfold verifyAndLoad
    rw [hfe]
  · exact verifyAndLoad_nonempty_keeps_record
  · intro address s
    unfold clearPendingBurn
    exact loadPendingBurn_save_none s address
  · intro env address s0 burnHash s hconf
    rw [bridgeUntilConfirm_confirmed_store env address s0 burnHash s hconf]
    exact loadPendingBurn_save_none s0 address

/-- Witness for C5 amended: every part instantiated at concrete runs. -/
theorem deletion_policy_amended_witness :
    loadPendingBurn (bridgeSepoliaToArc envTimeout ("0xUser") []).store ("0xUser") =
      some (mkPendingBurn envTimeout ("0xAA")) ∧
    (claimPendingBridge envClaimFail ("0xUser") pbA [(("0xuser"), pbA)] none).store =
      [(("0xuser"), pbA)] ∧
    loadPendingBurn (claimPendingBridge envClaimAlready ("0xUser") pbA
      [(("0xuser"), pbA)] none).store ("0xUser") = none ∧
    (verifyAndLoad { fetch := .error (), chainId := 0 } ("0xUser") pbA
      [(("0xuser"), pbA)]).store = [(("0xuser"), pbA)] ∧
    (∃ pb, loadPendingBurn (verifyAndLoad { fetch := .ok { messages := [readyMsg] }, chainId := 0 }
      ("0xUser") pbA [(("0xuser"), pbA)]).store ("0xUser") = some pb ∧ pb.txHash = pbA.txHash) ∧
    loadPendingBurn (clearPendingBurn ("0xUser") [(("0xuser"), pbA)]) ("0xUser") = none ∧
    loadPendingBurn [] ("0xUser") = none :=
  ⟨deletion_policy_amended.1 envTimeout ("0xUser") [] ("0xAA") [] (by decide) (fun n _ _ => rfl),
   deletion_policy_amended.2.1 envClaimFail ("0xUser") pbA [(("0xuser"), pbA)] none (by decide),
   deletion_policy_amended.2.2.1 envClaimAlready ("0xUser") pbA [(("0xuser"), pbA)] none (by decide),
   deletion_policy_amended.2.2.2.1 { fetch := .error (), chainId := 0 } ("0xUser") pbA
     [(("0xuser"), pbA)] rfl,
   deletion_policy_amended.2.2.2.2.1 { fetch := .ok { messages := [readyMsg] }, chainId := 0 }
     ("0xUser") pbA [(("0xuser"), pbA)] { messages := [readyMsg] } readyMsg [] rfl (by decide),
   deletion_policy_amended.2.2.2.2.2.1 ("0xUser") [(("0xuser"), pbA)],
   deletion_policy_amended.2.2.2.2.2.2 envTimeout ("0xUser") [(("0xuser"), pbA)] ("0xAA") []
     (by decide)⟩

/-! ## C6 -/

/-- C6 fails on the code: a transfer call made while an un-dismissed
record exists is not rejected; it deletes the existing record and
proceeds (here all the way to the burn submission, which the user then
rejects). -/
theorem second_transfer_clears_existing_record :
    loadPendingBurn [(("0xuser"), pbA)] ("0xUser") = some pbA ∧
    (bridgeSepoliaToArc envUserReject ("0xUser") [(("0xuser"), pbA)]).error =
      some ("Transaction rejected by user") ∧
    loadPendingBurn (bridgeSepoliaToArc envUserReject ("0xUser") [(("0xuser"), pbA)]).store
      ("0xUser") = none := by decide

/-- C6 amended: a transfer call with a valid amount first clears the
existing record for the initiator and then behaves exactly as it would
on a store with no record for that address. -/
theorem transfer_overwrites_prior_record (env : DirectEnv) (address : String)
    (s0 : Store) (r : PendingBurn)
    (hrec : loadPendingBurn s0 address = some r) (hamt : env.amountPos = true) :
    bridgeSepoliaToArc env address s0 =
      bridgeSepoliaToArc env address (savePendingBurn s0 address none) := by
  have key : savePendingBurn (savePendingBurn s0 address none) address none =
      savePendingBurn s0 address none := savePendingBurn_none_idem s0 address
  unfold bridgeSepoliaToArc bridgeUntilConfirm
  rw [hamt]
  simp only [Bool.not_true, Bool.false_eq_true, if_false, key]

/-- Witness for C6 amended: the run on a store holding a record for the
caller equals the run on the cleared store. -/
theorem transfer_overwrites_prior_record_witness :
    bridgeSepoliaToArc envUserReject ("0xUser") [(("0xuser"), pbA)] =
      bridgeSepoliaToArc envUserReject ("0xUser")
        (savePendingBurn [(("0xuser"), pbA)] ("0xUser") none) :=
  transfer_overwrites_prior_record envUserReject ("0xUser") [(("0xuser"), pbA)] pbA
    (by decide) (by decide)

/-! ## C7 -/

/-- C7 fails on the code: with a ready proof and the wallet already on
the record destination network (Sepolia), verifyAndLoad does not attempt
the automatic claim; it only surfaces the claim affordance, because the
auto-claim test compares against the hardcoded Arc Testnet chain id. -/
theorem reconciler_skips_autoclaim_on_destination :
    chainIdOf pbToSepolia.toNetwork = 11155111 ∧
    (verifyAndLoad { fetch := .ok { messages := [readyMsg] }, chainId := 11155111 }
      ("0xUser") pbToSepolia [(("0xuser"), pbToSepolia)]).autoClaimScheduled = false ∧
    (verifyAndLoad { fetch := .ok { messages := [readyMsg] }, chainId := 11155111 }
      ("0xUser") pbToSepolia [(("0xuser"), pbToSepolia)]).claimAffordanceShown = true := by decide

/-- C7 amended: with a ready proof, verifyAndLoad schedules the
automatic claim exactly when the wallet chain id is the hardcoded Arc
Testnet id and surfaces the claim affordance otherwise; in both cases
the record stays stored with its transaction hash intact and the status
is pending_mint, never complete. -/
theorem reconciler_proof_present_behavior (env : VerifyEnv) (address : String)
    (saved : PendingBurn) (s : Store) (r : CircleResponse) (m : CircleMessage)
    (rest : List CircleMessage)
    (hf : env.fetch = .ok r) (hm : r.messages = m :: rest)
    (hready : attReady m = true) :
    (verifyAndLoad env address saved s).autoClaimScheduled =
      (env.chainId == chainIdOf .arcTestnet) ∧
    (verifyAndLoad env address saved s).claimAffordanceShown =
      (env.chainId != chainIdOf .arcTestnet) ∧
    (verifyAndLoad env address saved s).attestationStatus = some ("pending_mint") ∧
    (∃ pb, loadPendingBurn (verifyAndLoad env address saved s).store address = some pb ∧
      pb.txHash = saved.txHash) := by
  unfold verifyAndLoad
  rw [hf]
  simp only [hm, List.head?]
  simp only [hready, Bool.not_true, Bool.false_eq_true, if_false]
  cases hc : (env.chainId == chainIdOf Network.arcTestnet) with
  | true =>
    simp only [hc, if_true]
    refine ⟨trivial, ?_, trivial, ?_⟩
    · simp [bne, hc]
    · exact ⟨_, loadPendingBurn_save_some s address _, rfl⟩
  | false =>
    simp only [hc, Bool.false_eq_true, if_false]
    refine ⟨trivial, ?_, trivial, ?_⟩
    · simp [bne, hc]
    · exact ⟨_, loadPendingBurn_save_some s address _, rfl⟩

/-- Witness for C7 amended: wallet on Arc Testnet, proof ready. -/
theorem reconciler_proof_present_behavior_witness :
    (verifyAndLoad { fetch := .ok { messages := [readyMsg] }, chainId := 5042002 }
      ("0xUser") pbA [(("0xuser"), pbA)]).autoClaimScheduled =
        ((5042002 : Nat) == chainIdOf .arcTestnet) ∧
    (verifyAndLoad { fetch := .ok { messages := [readyMsg] }, chainId := 5042002 }
      ("0xUser") pbA [(("0xuser"), pbA)]).claimAffordanceShown =
        ((5042002 : Nat) != chainIdOf .arcTestnet) ∧
    (verifyAndLoad { fetch := .ok { messages := [readyMsg] }, chainId := 5042002 }
      ("0xUser") pbA [(("0xuser"), pbA)]).attestationStatus = some ("pending_mint") ∧
    (∃ pb, loadPendingBurn (verifyAndLoad { fetch := .ok { messages := [readyMsg] }, chainId := 5042002 }
      ("0xUser") pbA [(("0xuser"), pbA)]).store ("0xUser") = some pb ∧
      pb.txHash = pbA.txHash) :=
  reconciler_proof_present_behavior
    { fetch := .ok { messages := [readyMsg] }, chainId := 5042002 }
    ("0xUser") pbA [(("0xuser"), pbA)] { messages := [readyMsg] } readyMsg []
    rfl (by decide) (by decide)

/-! ## C8 -/

/-- C8: for every input without transaction-hash shape (leading 0x and
exactly 66 characters), restorePendingBurn fails before any network
call, leaves the store unchanged and creates no record. -/
theorem restore_rejects_malformed_hash (env : RestoreEnv) (address burnTxHash : String)
    (s : Store)
    (h : ¬ (jsStartsWith burnTxHash ("0x") = true ∧ burnTxHash.length = 66)) :
    (restorePendingBurn env address burnTxHash s).success = false ∧
    (restorePendingBurn env address burnTxHash s).networkCalls = 0 ∧
    (restorePendingBurn env address burnTxHash s).store = s ∧
    (restorePendingBurn env address burnTxHash s).pendingBurn = none := by
  by_cases h1 : jsStartsWith burnTxHash ("0x") = true
  · have h2 : burnTxHash.length ≠ 66 := fun hl => h ⟨h1, hl⟩
    have ht := jsTruthy_of_starts0x burnTxHash h1
    simp [restorePendingBurn, h1, ht, h2]
  · have h1f : jsStartsWith burnTxHash ("0x") = false := by
      simpa using h1
    simp [restorePendingBurn, h1f]

/-- Witness for C8 at the malformed input 0xdead. -/
theorem restore_rejects_malformed_hash_witness :
    (restorePendingBurn envRestoreIdle ("0xUser") ("0xdead") []).success = false ∧
    (restorePendingBurn envRestoreIdle ("0xUser") ("0xdead") []).networkCalls = 0 ∧
    (restorePendingBurn envRestoreIdle ("0xUser") ("0xdead") []).store = [] ∧
    (restorePendingBurn envRestoreIdle ("0xUser") ("0xdead") []).pendingBurn = none :=
  restore_rejects_malformed_hash envRestoreIdle ("0xUser") ("0xdead") [] (by decide)

/-! ## C9 -/

/-- C9 fails on the code: the record store is not per-address
independent. Writing a record for 0xBob erases the record previously
stored for 0xAlice, because savePendingBurn overwrites the whole stored
object with a fresh single-entry one. -/
theorem savePendingBurn_for_other_address_erases_record :
    loadPendingBurn (savePendingBurn [] ("0xAlice") (some pbA)) ("0xAlice") = some pbA ∧
    loadPendingBurn
      (savePendingBurn (savePendingBurn [] ("0xAlice") (some pbA)) ("0xBob") (some pbB))
      ("0xAlice") = none := by decide

/-! ## C10 -/

/-- C10: in the direct Sepolia to Arc path, the maxFee passed with the
burn call equals the maximum of one basis point of the 6-decimal amount
(integer division) and the floor of 1000 base units. -/
theorem direct_path_maxFee_formula (amountWei : Nat) (h : 0 < amountWei) :
    sepoliaToArcMaxFee amountWei = max (amountWei * 1 / 10000) 1000 := by
  simp only [sepoliaToArcMaxFee]
  split <;> omega

/-- Witness for C10 at amountWei = 50000000 (50 USDC). -/
theorem direct_path_maxFee_formula_witness :
    sepoliaToArcMaxFee 50000000 = max (50000000 * 1 / 10000) 1000 :=
  direct_path_maxFee_formula 50000000 (by decide)

end ArcTreasury
